import Mathlib

/-!
Verification of the ton-api-indexing core against its specification.

The TypeScript sources are shallowly embedded: pure functions become Lean
functions over Nat / Int / String / List, stateful code becomes explicit
state passing, async side effects become event traces, and fallible code
returns Except.  External library behaviour (the MD5 digest, the JS regex
engine) is taken as a function parameter so that theorems quantify over
every implementation satisfying the documented contract.
-/

namespace TonIndexer

/-! ## JavaScript string semantics helpers (ASCII fragment used by the repo) -/

/-- ASCII whitespace, the fragment of the JS whitespace class the repo can meet. -/
def isWsChar (c : Char) : Bool :=
  c = ' ' || c = '\t' || c = '\n' || c = '\r'

/-- Model of String.prototype.trim for ASCII content. -/
def jsTrim (s : String) : String :=
  ((((s.toList.dropWhile isWsChar).reverse).dropWhile isWsChar).reverse).asString

/-- Model of s.substring(start, stop) for start less or equal stop (JS clamps). -/
def jsSubstring (s : String) (start stop : Nat) : String :=
  (((s.toList.drop start).take (stop - start))).asString

/-- Model of parseInt(s, 10): skip leading whitespace, optional sign, then the
longest run of leading decimal digits; no digits means NaN, modelled as none. -/
def jsParseInt (s : String) : Option Int :=
  let l := s.toList.dropWhile isWsChar
  let signAndRest : Int × List Char :=
    match l with
    | '-' :: rest => (-1, rest)
    | '+' :: rest => (1, rest)
    | _ => (1, l)
  let ds := signAndRest.2.takeWhile Char.isDigit
  if ds.isEmpty then none
  else some (signAndRest.1 * (ds.foldl (fun acc c => acc * 10 + (c.toNat - '0'.toNat)) 0 : Nat))

/-- Model of path.join restricted to joining already-clean segments. -/
def pathJoin (parts : List String) : String :=
  String.intercalate "/" parts

/-- Model of String.prototype.startsWith. -/
def strStartsWith (s pre : String) : Bool :=
  s.toList.take pre.toList.length == pre.toList

/-- Model of s.substring(n) / s.slice(n). -/
def strDrop (s : String) (n : Nat) : String :=
  (s.toList.drop n).asString

/-- Model of String.prototype.split on a one-character separator. -/
def splitOnChar (sep : Char) : List Char → List (List Char)
  | [] => [[]]
  | c :: rest =>
    let r := splitOnChar sep rest
    if c = sep then [] :: r
    else
      match r with
      | [] => [[c]]
      | h :: t => (c :: h) :: t

/-! ## directoryStructure.ts -/

/-- DIRECTORY_CONSTANTS.MAX_FILES_PER_DIRECTORY -/
def MAX_FILES_PER_DIRECTORY : Nat := 1000

/-- DIRECTORY_CONSTANTS.HASH_LENGTH (hex characters per directory level) -/
def HASH_LENGTH : Nat := 2

/-- DIRECTORY_CONSTANTS.MIN_DIRECTORY_LEVELS -/
def MIN_DIRECTORY_LEVELS : Nat := 2

/-- DIRECTORY_CONSTANTS.MAX_DIRECTORY_LEVELS -/
def MAX_DIRECTORY_LEVELS : Nat := 6

/-- The while loop of calculateOptimalDirectoryLevels.  The loop body increments
requiredLevels, and the guard requires requiredLevels < MAX_DIRECTORY_LEVELS, so
the loop runs at most MAX_DIRECTORY_LEVELS - MIN_DIRECTORY_LEVELS times; the
fuel argument starts at that bound and therefore never cuts the loop short.
The JS guard expectedFileCount / totalFolders > maxFilesPerDir is an exact
comparison of a ratio of naturals against a natural, rendered without division
as expectedFileCount > maxFilesPerDir * totalFolders. -/
def calcLevelsLoop (expectedFileCount foldersPerLevel : Nat) : Nat → Nat → Nat
  | requiredLevels, 0 => requiredLevels
  | requiredLevels, fuel + 1 =>
    if expectedFileCount > MAX_FILES_PER_DIRECTORY * foldersPerLevel ^ requiredLevels
        && requiredLevels < MAX_DIRECTORY_LEVELS then
      calcLevelsLoop expectedFileCount foldersPerLevel (requiredLevels + 1) fuel
    else
      requiredLevels

/-- calculateOptimalDirectoryLevels from directoryStructure.ts.  Note that the
source computes foldersPerLevel as Math.pow(256, HASH_LENGTH) = 65536, even
though its inline comment says 256 folders per level. -/
def calculateOptimalDirectoryLevels (expectedFileCount : Nat) : Nat :=
  let foldersPerLevel := 256 ^ HASH_LENGTH
  min
    (calcLevelsLoop expectedFileCount foldersPerLevel MIN_DIRECTORY_LEVELS
      (MAX_DIRECTORY_LEVELS - MIN_DIRECTORY_LEVELS))
    MAX_DIRECTORY_LEVELS

/-- The depth selection rule as the specification words it: the smallest depth
d in [2,6] with expectedFileCount / 256^d at most 1000 (exact rational
comparison), and 6 when no depth in the range satisfies the bound. -/
def optimalDepthSpecModel (expectedFileCount : Nat) : Nat :=
  if expectedFileCount ≤ MAX_FILES_PER_DIRECTORY * 256 ^ 2 then 2
  else if expectedFileCount ≤ MAX_FILES_PER_DIRECTORY * 256 ^ 3 then 3
  else if expectedFileCount ≤ MAX_FILES_PER_DIRECTORY * 256 ^ 4 then 4
  else if expectedFileCount ≤ MAX_FILES_PER_DIRECTORY * 256 ^ 5 then 5
  else 6

/-- The regex replace of a single leading EQ, UQ or kQ address tag. -/
def cleanAddress (address : String) : String :=
  if strStartsWith address "EQ" then strDrop address 2
  else if strStartsWith address "UQ" then strDrop address 2
  else if strStartsWith address "kQ" then strDrop address 2
  else address

/-- The directory segments built by getDirectoryPath: for each level i the
substring of the digest from i*HASH_LENGTH of length HASH_LENGTH.  The digest
function (crypto MD5 hex in the source) is a parameter.  The JS default
directoryLevels || MIN_DIRECTORY_LEVELS treats 0 as absent. -/
def directorySegments (digest : String → String) (address : String)
    (directoryLevels : Option Nat) : List String :=
  let hash := digest (cleanAddress address)
  let levels := match directoryLevels with
    | none => MIN_DIRECTORY_LEVELS
    | some n => if n = 0 then MIN_DIRECTORY_LEVELS else n
  (List.range levels).map fun i =>
    jsSubstring hash (i * HASH_LENGTH) (i * HASH_LENGTH + HASH_LENGTH)

/-- getDirectoryPath from directoryStructure.ts. -/
def getDirectoryPath (digest : String → String) (address baseDir : String)
    (directoryLevels : Option Nat) : String :=
  pathJoin (baseDir :: directorySegments digest address directoryLevels)

/-- The file name built by getFilePath: every non-alphanumeric character of the
address replaced by an underscore. -/
def inspectFileName (address : String) : String :=
  "inspect_" ++ (address.toList.map fun c => if c.isAlphanum then c else '_').asString ++ ".json"

/-- getFilePath from directoryStructure.ts. -/
def getFilePath (digest : String → String) (address baseDir : String)
    (directoryLevels : Option Nat) : String :=
  pathJoin [getDirectoryPath digest address baseDir directoryLevels,
            inspectFileName address]

/-! ## addressFilter.ts -/

/-- FilterResult from addressFilter.ts. -/
structure FilterResult where
  shouldProcess : Bool
  skipReason : Option String := none
deriving DecidableEq, Repr

/-- skipAddress builds a negative FilterResult carrying the reason (the stats
counters it also bumps are observability only and are not modelled). -/
def skipAddress (reason : String) : FilterResult :=
  { shouldProcess := false, skipReason := some reason }

/-- Hex digit class [0-9a-f] used by the system patterns. -/
def isHexDigitLower (c : Char) : Bool :=
  c.isDigit || ('a' ≤ c && c ≤ 'f')

/-- Number of '0' characters in a string ((hash.match of the zero class).length). -/
def countZeros (s : String) : Nat :=
  (s.toList.filter (fun c => c = '0')).length

/-- The non-overlapping 8-character chunks hash.match(/.{8}/g) returns, any
shorter remainder dropped. -/
def chunks8 (l : List Char) : List (List Char) :=
  (List.range (l.length / 8)).map fun i => (l.drop (8 * i)).take 8

/-- Test of the anchored pattern of at least 10 hex digits followed by at least
20 zeros, starting at the beginning of the string: some split point k at least
10 has only hex digits before it and 20 zeros right after it. -/
def matchesHexThenZeros (l : List Char) : Bool :=
  (List.range (l.length + 1)).any fun k =>
    decide (10 ≤ k) && (l.take k).all isHexDigitLower
      && decide (((l.drop k).take 20).length = 20)
      && ((l.drop k).take 20).all (fun c => c = '0')

/-- Test of the end-anchored pattern of at least 15 zeros followed by at least
5 hex digits running to the end of the string. -/
def matchesZerosThenHexEnd (l : List Char) : Bool :=
  (List.range (l.length + 1)).any fun j =>
    (List.range (l.length + 1)).any fun k =>
      decide (j + 15 ≤ k) && decide (k + 5 ≤ l.length)
        && ((l.drop j).take (k - j)).all (fun c => c = '0')
        && (l.drop k).all isHexDigitLower

/-- isMasterchainSystemAddress from addressFilter.ts.  The seven fixed system
regex patterns are rendered as the string predicates they denote; the float
threshold test zeroPercentage > 0.55 is rendered exactly over naturals as
100 * zeroCount > 55 * length. -/
def isMasterchainSystemAddress (rawAddress : String) : Bool :=
  if strStartsWith rawAddress "-2:" then true
  else if ¬ strStartsWith rawAddress "-1:" then false
  else
    let hash := strDrop rawAddress 3
    if hash.length ≠ 64 then true
    else if 100 * countZeros hash > 55 * hash.length then true
    else
      let l := hash.toList
      if (l.takeWhile (fun c => c = '0')).length ≥ 20 then true
      else if (l.takeWhile (fun c => c = '0')).length ≥ 23 then true
      else if (l.takeWhile (fun c => c = 'f')).length ≥ 13 then true
      else if (l.reverse.takeWhile (fun c => c = 'f')).length ≥ 11 then true
      else if matchesHexThenZeros l then true
      else if matchesZerosThenHexEnd l then true
      else if (l.takeWhile (fun c => c = '0')).length ≥ 25
          && (l.drop 25).length ≥ 10 && (l.drop 25).all isHexDigitLower then true
      else
        let chunks := chunks8 l
        decide (chunks.length ≥ 8) && decide (chunks.dedup.length ≤ 2)

/-- isZeroHeavyAddress from addressFilter.ts; the float thresholds 0.8 and
0.75 are rendered exactly over naturals. -/
def isZeroHeavyAddress (rawAddress : String) : Bool :=
  let parts := (splitOnChar ':' rawAddress.toList).map List.asString
  if parts.length ≠ 2 then false
  else
    let hash := parts.getD 1 ""
    let zeroCount := countZeros hash
    if parts.getD 0 "" = "-1" || parts.getD 0 "" = "-2" then
      10 * zeroCount > 8 * hash.length
    else
      100 * zeroCount > 75 * hash.length

/-- isShortAddress from addressFilter.ts. -/
def isShortAddress (rawAddress : String) : Bool :=
  rawAddress.length < 10

/-- matchesPattern from addressFilter.ts.  new RegExp(pattern) either compiles
to a test function or throws; the JS regex engine is modelled as a parameter
returning none exactly when compilation throws, and the catch branch of the
source returns false in that case. -/
def matchesPattern (compile : String → Option (String → Bool))
    (rawAddress pattern : String) : Bool :=
  match compile pattern with
  | some test => test rawAddress
  | none => false

/-- shouldProcessAddress from addressFilter.ts: the built-in checks in source
order, then the first matching custom skip pattern, else keep. -/
def shouldProcessAddress (compile : String → Option (String → Bool))
    (customSkipPatterns : List String) (rawAddress : String) : FilterResult :=
  if isMasterchainSystemAddress rawAddress then skipAddress "masterchain_system"
  else if isZeroHeavyAddress rawAddress then skipAddress "zero_heavy"
  else if isShortAddress rawAddress then skipAddress "too_short"
  else
    match customSkipPatterns.find? (fun p => matchesPattern compile rawAddress p) with
    | some p => skipAddress ("custom_pattern:" ++ p)
    | none => { shouldProcess := true }

/-! ## types/index.ts -/

/-- ProcessingResult from types/index.ts. -/
structure ProcessingResult where
  address : String
  success : Bool
  error : Option String := none
  skipped : Bool := false
  filePath : Option String := none
deriving DecidableEq, Repr

/-- One entry of BatchSummary.errors. -/
structure BatchErrorEntry where
  address : String
  error : String
deriving DecidableEq, Repr

/-- BatchSummary from types/index.ts. -/
structure BatchSummary where
  total : Nat
  successful : Nat
  failed : Nat
  skipped : Nat
  errors : List BatchErrorEntry
deriving DecidableEq, Repr

/-- PageInfo from types/index.ts. -/
structure PageInfo where
  hasNextPage : Bool
  endCursor : Option String
deriving DecidableEq, Repr

/-- The allAccounts payload: the node list (each node reduced to its
rawAddress) and the page info. -/
structure Page where
  nodes : List String
  pageInfo : PageInfo
deriving DecidableEq, Repr

/-- IterationResult from types/index.ts. -/
structure IterationResult where
  summary : BatchSummary
  hasNextPage : Bool
  endCursor : Option String
deriving DecidableEq, Repr

/-! ## fileUtils.ts (filesystem effects as explicit operation lists) -/

/-- One filesystem side effect performed by the storage layer. -/
inductive FsOp where
  | ensureDir (path : String)
  | writeFile (path : String) (content : String)
  | rename (src dst : String)
deriving DecidableEq, Repr

/-- generateFileName from fileUtils.ts (colons replaced by underscores). -/
def generateFileName (rawAddress : String) : String :=
  "inspect_" ++ (rawAddress.toList.map fun c => if c = ':' then '_' else c).asString ++ ".json"

/-- saveContractData from fileUtils.ts (flat layout): the list of filesystem
operations it performs and the path it returns.  The serialized snapshot is
the opaque content parameter. -/
def saveContractDataOps (dataDirectory rawAddress content : String) :
    List FsOp × String :=
  let filePath := pathJoin [dataDirectory, generateFileName rawAddress]
  ([FsOp.ensureDir dataDirectory, FsOp.writeFile filePath content], filePath)

/-- saveContractData from the hierarchical fileUtils variant: prepareFilePath
ensures the sharded directory chain, then the snapshot is written to the final
path in a single writeFile call. -/
def saveContractDataHierOps (digest : String → String)
    (dataDirectory rawAddress content : String) (directoryLevels : Option Nat) :
    List FsOp × String :=
  let dirPath := getDirectoryPath digest rawAddress dataDirectory directoryLevels
  let filePath := pathJoin [dirPath, inspectFileName rawAddress]
  ([FsOp.ensureDir dirPath, FsOp.writeFile filePath content], filePath)

/-- Modelled from the spec: the write-then-rename discipline the spec demands
of the Store.  It holds of an operation list and final path when no write
targets the final path directly and the final path is produced by renaming
some temporary file onto it. -/
def atomicViaRename (ops : List FsOp) (finalPath : String) : Prop :=
  (∀ c, FsOp.writeFile finalPath c ∉ ops) ∧ ∃ tmp, FsOp.rename tmp finalPath ∈ ops

instance (ops : List FsOp) (finalPath : String) :
    Decidable (atomicViaRename ops finalPath) :=
  decidable_of_iff
    ((ops.any fun op => match op with
        | FsOp.writeFile p _ => p == finalPath
        | _ => false) = false
      ∧ (ops.any fun op => match op with
        | FsOp.rename _ dst => dst == finalPath
        | _ => false) = true) (by
    constructor
    · rintro ⟨hw, hr⟩
      constructor
      · intro c hmem
        have hane : (ops.any fun op => match op with
            | FsOp.writeFile p _ => p == finalPath
            | _ => false) = true :=
          List.any_eq_true.mpr ⟨FsOp.writeFile finalPath c, hmem, by simp⟩
        rw [hane] at hw
        exact absurd hw (by simp)
      · rcases List.any_eq_true.mp hr with ⟨op, hop, hb⟩
        cases op with
        | rename src dst =>
          have : dst = finalPath := by simpa using hb
          exact ⟨src, this ▸ hop⟩
        | ensureDir p => simp at hb
        | writeFile p c => simp at hb
    · rintro ⟨hnw, tmp, hmem⟩
      refine ⟨?_, List.any_eq_true.mpr ⟨FsOp.rename tmp finalPath, hmem, by simp⟩⟩
      by_contra hany
      rcases List.any_eq_true.mp (Bool.of_not_eq_false hany) with ⟨op, hop, hb⟩
      cases op with
      | rename src dst => simp at hb
      | ensureDir p => simp at hb
      | writeFile p c =>
        have : p = finalPath := by simpa using hb
        exact hnw c (this ▸ hop))

/-- readCursor from fileUtils.ts, over the cursor file content (none when the
file does not exist): the trimmed content, empty trimmed content mapped to
null. -/
def readCursor (cursorFile : Option String) : Option String :=
  match cursorFile with
  | none => none
  | some s => if jsTrim s = "" then none else some (jsTrim s)

/-! ## RestClient.ts / GraphQLClient.ts error handling -/

/-- The shape of a failed REST attempt as axios presents it: a response with a
status and an optional retry-after header value, a request with no response
(network failure), or a non-axios error. -/
inductive RestFailure where
  | response (status : Nat) (retryAfter : Option String)
  | network
  | unknown (msg : String)
deriving DecidableEq, Repr

/-- The shape of a failed GraphQL attempt: a ClientError carrying an optional
response status and optional retry-after header, or any other error.
graphql-request raises ClientError only for HTTP/GraphQL error responses, so a
network failure is not a ClientError and lands in the unknown constructor. -/
inductive GraphQLFailure where
  | clientError (status : Option Nat) (retryAfter : Option String)
  | unknown (msg : String)
deriving DecidableEq, Repr

/-- The retry decision both handleError methods return (the Error object
itself only wraps the message and is not modelled). -/
structure RetryDecision where
  shouldRetry : Bool
  delay : Int
deriving DecidableEq, Repr

/-- The rate-limit delay computation shared by both handleError bodies for a
429: a truthy retry-after header that parses as an integer is converted to
milliseconds as-is; otherwise exponential backoff capped at 60000 ms.  The JS
truthiness test on the header treats the empty string as absent. -/
def rateLimitDelay (retryDelayMs : Nat) (retryAfter : Option String)
    (attempt : Nat) : Int :=
  let backoff : Int := min (retryDelayMs * 2 ^ attempt : Nat) 60000
  match retryAfter with
  | some s =>
    if s = "" then backoff
    else
      match jsParseInt s with
      | some n => n * 1000
      | none => backoff
  | none => backoff

/-- RestClient.handleError from RestClient.ts. -/
def restHandleError (retryDelayMs : Nat) (e : RestFailure) (attempt : Nat) :
    RetryDecision :=
  match e with
  | RestFailure.response status retryAfter =>
    if status = 429 then
      { shouldRetry := true, delay := rateLimitDelay retryDelayMs retryAfter attempt }
    else
      { shouldRetry := true, delay := (retryDelayMs * attempt : Nat) }
  | RestFailure.network =>
    { shouldRetry := true, delay := (retryDelayMs * attempt : Nat) }
  | RestFailure.unknown _ =>
    { shouldRetry := false, delay := 0 }

/-- GraphQLClient.handleError from GraphQLClient.ts. -/
def graphqlHandleError (retryDelayMs : Nat) (e : GraphQLFailure) (attempt : Nat) :
    RetryDecision :=
  match e with
  | GraphQLFailure.clientError status retryAfter =>
    if status = some 429 then
      { shouldRetry := true, delay := rateLimitDelay retryDelayMs retryAfter attempt }
    else
      { shouldRetry := true, delay := (retryDelayMs * attempt : Nat) }
  | GraphQLFailure.unknown _ =>
    { shouldRetry := false, delay := 0 }

/-! ## IndexerService.ts -/

/-- The environment an indexer iteration runs against: the GraphQL source, the
regex engine and custom patterns of the address filter, the existence check of
the store, the REST detail fetch and the store write.  The two fallible
effects return Except with the error message a thrown Error would carry. -/
structure Env where
  fetchAccounts : Option String → Page
  compile : String → Option (String → Bool)
  customSkipPatterns : List String
  contractExists : String → Bool
  inspectContract : String → Except String String
  save : String → String → Except String String

/-- The body of processAccount up to its try/catch: filter, dedupe against the
store, fetch the detail, save it.  Any thrown error propagates as Except. -/
def processAccountBody (env : Env) (rawAddress : String) :
    Except String ProcessingResult :=
  let filterResult := shouldProcessAddress env.compile env.customSkipPatterns rawAddress
  if ¬ filterResult.shouldProcess then
    Except.ok { address := rawAddress, success := true, skipped := true,
                error := some ("Filtered: " ++ filterResult.skipReason.getD "undefined") }
  else if env.contractExists rawAddress then
    Except.ok { address := rawAddress, success := true, skipped := true }
  else
    match env.inspectContract rawAddress with
    | Except.error e => Except.error e
    | Except.ok contractData =>
      match env.save rawAddress contractData with
      | Except.error e => Except.error e
      | Except.ok filePath =>
        Except.ok { address := rawAddress, success := true, filePath := some filePath }

/-- processAccount from IndexerService.ts: the catch clause turns any thrown
error into a Failed result carrying the error message. -/
def processAccount (env : Env) (rawAddress : String) : ProcessingResult :=
  match processAccountBody env rawAddress with
  | Except.ok r => r
  | Except.error e => { address := rawAddress, success := false, error := some e }

/-- processAccountsBatch from IndexerService.ts: one processAccount task per
account; Promise.all resolves with the results in task order once every task
has settled. -/
def processAccountsBatch (env : Env) (accounts : List String) :
    List ProcessingResult :=
  accounts.map (processAccount env)

/-- The loop body of compileBatchSummary. -/
def summaryStep (s : BatchSummary) (r : ProcessingResult) : BatchSummary :=
  if r.success then
    if r.skipped then { s with skipped := s.skipped + 1 }
    else { s with successful := s.successful + 1 }
  else
    { s with
      failed := s.failed + 1,
      errors := s.errors ++ match r.error with
        | some e => [{ address := r.address, error := e }]
        | none => [] }

/-- compileBatchSummary from IndexerService.ts. -/
def compileBatchSummary (results : List ProcessingResult) : BatchSummary :=
  results.foldl summaryStep
    { total := results.length, successful := 0, failed := 0, skipped := 0, errors := [] }

/-- The observable steps of one runIteration call, in program order. -/
inductive Event where
  | ensureDataDir
  | readCursorEv (cursor : Option String)
  | fetchPageEv (cursor : Option String)
  | outcomeEv (r : ProcessingResult)
  | saveCursorEv (cursor : String)
deriving DecidableEq, Repr

/-- What one runIteration call produces: its IterationResult, the cursor file
content it leaves behind, and the ordered trace of its observable steps. -/
structure IterOutput where
  result : IterationResult
  cursorFile : Option String
  trace : List Event
deriving Repr

/-- The JS truthiness test on pageInfo.endCursor guarding saveCursor: absent
and empty-string cursors are falsy and are not persisted. -/
def truthyCursor (endCursor : Option String) : Option String :=
  match endCursor with
  | some c => if c = "" then none else some c
  | none => none

/-- runIteration from IndexerService.ts over an explicit cursor file state.
The empty page returns early with an all-zero summary and does not touch the
cursor; otherwise the batch is awaited in full, then the cursor is saved when
pageInfo.endCursor is truthy (the empty string is falsy in JS), then the
summary is compiled. -/
def runIteration (env : Env) (cursorFile : Option String) : IterOutput :=
  let cursor := readCursor cursorFile
  let page := env.fetchAccounts cursor
  let start := [Event.ensureDataDir, Event.readCursorEv cursor, Event.fetchPageEv cursor]
  if page.nodes.isEmpty then
    { result := { summary := { total := 0, successful := 0, failed := 0,
                               skipped := 0, errors := [] },
                  hasNextPage := false, endCursor := none },
      cursorFile := cursorFile,
      trace := start }
  else
    let results := processAccountsBatch env page.nodes
    let saved : Option String := truthyCursor page.pageInfo.endCursor
    { result := { summary := compileBatchSummary results,
                  hasNextPage := page.pageInfo.hasNextPage,
                  endCursor := page.pageInfo.endCursor },
      cursorFile := match saved with
        | some c => some c
        | none => cursorFile,
      trace := start ++ results.map Event.outcomeEv ++ (match saved with
        | some c => [Event.saveCursorEv c]
        | none => []) }

/-- The while loop of runComplete, counting how many iterations are started.
Each loop body runs one iteration and then reads the cursor file back; a null
read-back clears hasNextPage and ends the loop.  The fuel argument bounds the
count so that the Lean function is total; an exhausted fuel reports the
iterations started so far. -/
def runCompleteIters (env : Env) : Option String → Nat → Nat
  | _, 0 => 0
  | cursorFile, fuel + 1 =>
    let out := runIteration env cursorFile
    match readCursor out.cursorFile with
    | none => 1
    | some _ => 1 + runCompleteIters env out.cursorFile fuel

/-- Recogniser for outcome events in an iteration trace. -/
def isOutcomeEv : Event → Bool
  | Event.outcomeEv _ => true
  | _ => false

/-- Recogniser for cursor-save events in an iteration trace. -/
def isSaveEv : Event → Bool
  | Event.saveCursorEv _ => true
  | _ => false

/-- A concrete environment whose source always answers with one final page:
one node, hasNextPage false, but a non-null endCursor (as GraphQL connections
return even on the last page). -/
def envLastPage : Env where
  fetchAccounts := fun _ =>
    { nodes := ["0:ab"], pageInfo := { hasNextPage := false, endCursor := some "CUR" } }
  compile := fun _ => none
  customSkipPatterns := []
  contractExists := fun _ => true
  inspectContract := fun _ => Except.error "unused"
  save := fun _ _ => Except.error "unused"

/-- A concrete environment whose source always answers with an empty page and
no cursor. -/
def envEmptySource : Env where
  fetchAccounts := fun _ =>
    { nodes := [], pageInfo := { hasNextPage := false, endCursor := none } }
  compile := fun _ => none
  customSkipPatterns := []
  contractExists := fun _ => false
  inspectContract := fun _ => Except.error "unused"
  save := fun _ _ => Except.error "unused"

/-- A concrete environment whose detail fetch always fails, against an empty
store with no filter patterns. -/
def envFailingInspect : Env where
  fetchAccounts := fun _ =>
    { nodes := ["0:1234567890", "0:1234567891"],
      pageInfo := { hasNextPage := true, endCursor := some "N" } }
  compile := fun _ => none
  customSkipPatterns := []
  contractExists := fun _ => false
  inspectContract := fun _ => Except.error "boom"
  save := fun _ a => Except.ok a

/-! ## Theorems -/

/-- Claim C2 (code bug): the claim says optimalDepth returns the smallest
depth d in [2,6] with n / 256^d at most 1000.  At n = 100000000 the code
returns depth 2, yet 100000000 / 256^2 exceeds 1000 while depth 3 satisfies
the bound: the code divides by 65536^d (Math.pow(256, HASH_LENGTH)^d) against
its own inline comment of 256 folders per level. -/
theorem calculateOptimalDirectoryLevels_violates_256_bound :
    calculateOptimalDirectoryLevels 100000000 = 2 ∧
    ¬ (100000000 ≤ MAX_FILES_PER_DIRECTORY * 256 ^ 2) ∧
    (100000000 ≤ MAX_FILES_PER_DIRECTORY * 256 ^ 3) ∧
    optimalDepthSpecModel 100000000 = 3 := by
  decide

/-- Claim C3 (code bug): saveContractData writes the snapshot with a single
direct writeFile to the final path in both the flat and the hierarchical
variant; no write-then-rename (atomicViaRename) discipline is present, so a
crash mid-write can leave a partial file at the path exists() checks. -/
theorem saveContractData_writes_final_path_directly :
    (¬ atomicViaRename (saveContractDataOps "./data" "0:ab" "snapshot").1
        (saveContractDataOps "./data" "0:ab" "snapshot").2) ∧
    FsOp.writeFile (saveContractDataOps "./data" "0:ab" "snapshot").2 "snapshot"
      ∈ (saveContractDataOps "./data" "0:ab" "snapshot").1 ∧
    (¬ atomicViaRename
        (saveContractDataHierOps (fun _ => "00112233445566778899aabbccddeeff")
          "./data" "0:ab" "snapshot" (some 2)).1
        (saveContractDataHierOps (fun _ => "00112233445566778899aabbccddeeff")
          "./data" "0:ab" "snapshot" (some 2)).2) ∧
    FsOp.writeFile
        (saveContractDataHierOps (fun _ => "00112233445566778899aabbccddeeff")
          "./data" "0:ab" "snapshot" (some 2)).2 "snapshot"
      ∈ (saveContractDataHierOps (fun _ => "00112233445566778899aabbccddeeff")
          "./data" "0:ab" "snapshot" (some 2)).1 := by
  decide

/-- Claim C4 counterexample: a transient failure (HTTP 500, or a network
failure) at attempt 1 with baseDelayMs 1000 gets delay 1000 in both clients,
not the baseDelayMs * 2^attempt = 2000 the claim states. -/
theorem transient_backoff_linear_counterexample :
    (restHandleError 1000 (RestFailure.response 500 none) 1).delay = 1000 ∧
    (restHandleError 1000 RestFailure.network 1).delay = 1000 ∧
    (graphqlHandleError 1000 (GraphQLFailure.clientError (some 500) none) 1).delay = 1000 ∧
    (1000 : Int) ≠ min ((1000 * 2 ^ 1 : Nat) : Int) 60000 := by
  decide

/-- Claim C4 amended: the REST client retries a transient failure (any non-2xx
response status other than 429, or a network failure) with the linear,
uncapped delay baseDelayMs * attempt; the GraphQL client gives that linear
retryable delay only to non-429 ClientError failures (HTTP error responses),
while a network failure there is not a ClientError, falls to the
unknown-error branch, and is not retryable (delay 0).  In both clients a 429
with no retry-after value is retryable with delay baseDelayMs * 2^attempt
capped at 60000 ms. -/
theorem backoff_linear_transient_exponential_rate_limited
    (d attempt status : Nat) (msg : String) (h : status ≠ 429) :
    restHandleError d (RestFailure.response status none) attempt
      = { shouldRetry := true, delay := (d * attempt : Nat) } ∧
    restHandleError d RestFailure.network attempt
      = { shouldRetry := true, delay := (d * attempt : Nat) } ∧
    graphqlHandleError d (GraphQLFailure.clientError (some status) none) attempt
      = { shouldRetry := true, delay := (d * attempt : Nat) } ∧
    graphqlHandleError d (GraphQLFailure.unknown msg) attempt
      = { shouldRetry := false, delay := 0 } ∧
    restHandleError d (RestFailure.response 429 none) attempt
      = { shouldRetry := true, delay := min ((d * 2 ^ attempt : Nat) : Int) 60000 } ∧
    graphqlHandleError d (GraphQLFailure.clientError (some 429) none) attempt
      = { shouldRetry := true, delay := min ((d * 2 ^ attempt : Nat) : Int) 60000 } := by
  refine ⟨?_, ?_, ?_, ?_, ?_, ?_⟩ <;>
    simp [restHandleError, graphqlHandleError, rateLimitDelay, h]

/-- Witness for the amended C4 theorem at d = 1000, attempt = 1, status = 500,
covering the REST linear branch, the GraphQL non-retryable network-failure
branch and the capped exponential 429 branch. -/
theorem backoff_linear_transient_witness :
    restHandleError 1000 (RestFailure.response 500 none) 1
      = { shouldRetry := true, delay := (1000 * 1 : Nat) } ∧
    graphqlHandleError 1000 (GraphQLFailure.unknown "fetch failed") 1
      = { shouldRetry := false, delay := 0 } ∧
    restHandleError 1000 (RestFailure.response 429 none) 1
      = { shouldRetry := true, delay := min ((1000 * 2 ^ 1 : Nat) : Int) 60000 } :=
  ⟨(backoff_linear_transient_exponential_rate_limited 1000 1 500 "fetch failed"
      (by decide)).1,
   (backoff_linear_transient_exponential_rate_limited 1000 1 500 "fetch failed"
      (by decide)).2.2.2.1,
   (backoff_linear_transient_exponential_rate_limited 1000 1 500 "fetch failed"
      (by decide)).2.2.2.2.1⟩

/-- Claim C5 counterexample: a 429 carrying Retry-After 120 yields delay
120000 ms in both clients, above the 60000 ms cap the claim states. -/
theorem retry_after_delay_uncapped_counterexample :
    (restHandleError 1000 (RestFailure.response 429 (some "120")) 1).delay = 120000 ∧
    (graphqlHandleError 1000 (GraphQLFailure.clientError (some 429) (some "120")) 1).delay
      = 120000 ∧
    ¬ ((120000 : Int) ≤ 60000) := by
  decide

/-- Claim C5 amended: in both clients a 429 whose retry-after header parses as
the integer n yields delay n * 1000 ms with no cap applied, and the error is
retryable. -/
theorem retry_after_delay_millis (d attempt : Nat) (s : String) (n : Int)
    (hs : s ≠ "") (hn : jsParseInt s = some n) :
    restHandleError d (RestFailure.response 429 (some s)) attempt
      = { shouldRetry := true, delay := n * 1000 } ∧
    graphqlHandleError d (GraphQLFailure.clientError (some 429) (some s)) attempt
      = { shouldRetry := true, delay := n * 1000 } := by
  constructor <;> simp [restHandleError, graphqlHandleError, rateLimitDelay, hs, hn]

/-- Witness for the amended C5 theorem at d = 1000, attempt = 1, header 120. -/
theorem retry_after_delay_millis_witness :
    restHandleError 1000 (RestFailure.response 429 (some "120")) 1
      = { shouldRetry := true, delay := 120 * 1000 } ∧
    graphqlHandleError 1000 (GraphQLFailure.clientError (some 429) (some "120")) 1
      = { shouldRetry := true, delay := 120 * 1000 } :=
  retry_after_delay_millis 1000 1 "120" 120 (by decide) (by decide)

/-- Length of a character list rendered back as a string. -/
theorem length_asString (l : List Char) : (l.asString).length = l.length := rfl

/-- Claim C9: getFilePath is deterministic in its inputs, and the directory
part of the path consists of exactly depth successive 2-character substrings
of the digest of the tag-stripped identifier, for any digest honouring the
32-hex-character MD5 contract and any configured depth in [1,6]. -/
theorem getFilePath_deterministic_and_sharded
    (digest : String → String) (hd : ∀ s, (digest s).length = 32)
    (address baseDir : String) (d : Nat) (h1 : 1 ≤ d) (h6 : d ≤ 6) :
    getFilePath digest address baseDir (some d)
      = getFilePath digest address baseDir (some d) ∧
    (directorySegments digest address (some d)).length = d ∧
    (∀ i, i < d → (directorySegments digest address (some d))[i]?
      = some (jsSubstring (digest (cleanAddress address)) (i * 2) (i * 2 + 2))) ∧
    ∀ seg ∈ directorySegments digest address (some d), seg.length = 2 := by
  have hd0 : ¬ d = 0 := by omega
  refine ⟨rfl, ?_, ?_, ?_⟩
  · simp [directorySegments, hd0]
  · intro i hi
    simp [directorySegments, hd0, List.getElem?_range hi, HASH_LENGTH]
  · intro seg hseg
    simp only [directorySegments, hd0, if_false, List.mem_map, List.mem_range] at hseg
    obtain ⟨i, hir, rfl⟩ := hseg
    have hlen : (digest (cleanAddress address)).toList.length = 32 := hd _
    rw [jsSubstring, length_asString, List.length_take, List.length_drop, hlen]
    simp only [HASH_LENGTH]
    omega

/-- Witness for the C9 theorem at a constant 32-character digest, address
EQfoo and depth 3. -/
theorem getFilePath_deterministic_and_sharded_witness :
    getFilePath (fun _ => "00112233445566778899aabbccddeeff") "EQfoo" "./data" (some 3)
      = getFilePath (fun _ => "00112233445566778899aabbccddeeff") "EQfoo" "./data" (some 3) ∧
    (directorySegments (fun _ => "00112233445566778899aabbccddeeff") "EQfoo" (some 3)).length
      = 3 :=
  ⟨(getFilePath_deterministic_and_sharded (fun _ => "00112233445566778899aabbccddeeff")
      (fun _ => rfl) "EQfoo" "./data" 3 (by decide) (by decide)).1,
   (getFilePath_deterministic_and_sharded (fun _ => "00112233445566778899aabbccddeeff")
      (fun _ => rfl) "EQfoo" "./data" 3 (by decide) (by decide)).2.1⟩

/-- summaryStep never changes the total field. -/
theorem summaryStep_total (s : BatchSummary) (r : ProcessingResult) :
    (summaryStep s r).total = s.total := by
  by_cases h1 : r.success <;> by_cases h2 : r.skipped <;> simp [summaryStep, h1, h2]

/-- summaryStep increments exactly one of the three counters. -/
theorem summaryStep_counts (s : BatchSummary) (r : ProcessingResult) :
    (summaryStep s r).successful + (summaryStep s r).failed + (summaryStep s r).skipped
      = s.successful + s.failed + s.skipped + 1 := by
  by_cases h1 : r.success <;> by_cases h2 : r.skipped <;>
    simp [summaryStep, h1, h2] <;> omega

/-- Errors after a summaryStep come from the prior errors or from the result
just folded in, which then failed with that message. -/
theorem summaryStep_errors (s : BatchSummary) (r : ProcessingResult)
    (e : BatchErrorEntry) (he : e ∈ (summaryStep s r).errors) :
    e ∈ s.errors ∨ (r.success = false ∧ r.address = e.address ∧ r.error = some e.error) := by
  by_cases h1 : r.success
  · by_cases h2 : r.skipped <;> simp [summaryStep, h1, h2] at he <;> exact Or.inl he
  · simp only [summaryStep, h1, Bool.false_eq_true, if_false] at he
    rcases List.mem_append.mp he with h | h
    · exact Or.inl h
    · right
      cases herr : r.error with
      | none => rw [herr] at h; simp at h
      | some msg =>
        rw [herr] at h
        simp only [List.mem_singleton] at h
        subst h
        exact ⟨by simpa using h1, rfl, herr ▸ rfl⟩

/-- The compileBatchSummary fold invariant, generalized over the accumulator. -/
theorem summaryFold_invariant (results : List ProcessingResult) (s0 : BatchSummary) :
    (results.foldl summaryStep s0).total = s0.total ∧
    (results.foldl summaryStep s0).successful + (results.foldl summaryStep s0).failed
        + (results.foldl summaryStep s0).skipped
      = s0.successful + s0.failed + s0.skipped + results.length ∧
    ∀ e ∈ (results.foldl summaryStep s0).errors,
      e ∈ s0.errors ∨ ∃ r ∈ results,
        r.success = false ∧ r.address = e.address ∧ r.error = some e.error := by
  induction results generalizing s0 with
  | nil => simp
  | cons r rs ih =>
    obtain ⟨iht, ihc, ihe⟩ := ih (summaryStep s0 r)
    refine ⟨?_, ?_, ?_⟩
    · rw [List.foldl_cons, iht, summaryStep_total]
    · rw [List.foldl_cons, ihc, summaryStep_counts]
      simp
      omega
    · intro e he
      rcases ihe e (by simpa using he) with h | ⟨r', hr', hprop⟩
      · rcases summaryStep_errors s0 r e h with h' | h'
        · exact Or.inl h'
        · exact Or.inr ⟨r, List.mem_cons_self r rs, h'⟩
      · exact Or.inr ⟨r', List.mem_cons_of_mem r hr', hprop⟩

/-- Claim C10: compileBatchSummary reports total equal to the number of
results, the three buckets partition the results exactly, and every errors
entry comes from a failed result carrying that message. -/
theorem compileBatchSummary_invariants (results : List ProcessingResult) :
    (compileBatchSummary results).total = results.length ∧
    (compileBatchSummary results).successful + (compileBatchSummary results).failed
        + (compileBatchSummary results).skipped = (compileBatchSummary results).total ∧
    ∀ e ∈ (compileBatchSummary results).errors,
      ∃ r ∈ results, r.success = false ∧ r.address = e.address ∧ r.error = some e.error := by
  obtain ⟨ht, hc, he⟩ := summaryFold_invariant results
    { total := results.length, successful := 0, failed := 0, skipped := 0, errors := [] }
  refine ⟨ht, ?_, ?_⟩
  · rw [compileBatchSummary, hc, ht]
    simp
  · intro e hmem
    rcases he e hmem with h | h
    · simp at h
    · exact h

/-- Witness for the C10 theorem on a concrete batch with one success, one
filtered skip and one failure. -/
theorem compileBatchSummary_invariants_witness :
    (compileBatchSummary
      [{ address := "0:aa", success := true },
       { address := "0:bb", success := true, skipped := true },
       { address := "0:cc", success := false, error := some "boom" }]).total = 3 ∧
    ∃ r ∈ [({ address := "0:aa", success := true } : ProcessingResult),
           { address := "0:bb", success := true, skipped := true },
           { address := "0:cc", success := false, error := some "boom" }],
      r.success = false ∧ r.address = "0:cc" ∧ r.error = some "boom" :=
  ⟨(compileBatchSummary_invariants _).1,
   (compileBatchSummary_invariants
      [{ address := "0:aa", success := true },
       { address := "0:bb", success := true, skipped := true },
       { address := "0:cc", success := false, error := some "boom" }]).2.2
     { address := "0:cc", error := "boom" } (by decide)⟩

/-- Appending preserves the left operand as a string head. -/
theorem strStartsWith_append (a b : String) : strStartsWith (a ++ b) a = true := by
  unfold strStartsWith
  rw [show (a ++ b).toList = a.toList ++ b.toList from by
        simp [String.toList, String.data_append],
      List.take_left]
  exact beq_self_eq_true _

/-- Left cancellation for string append. -/
theorem string_append_left_cancel {a p q : String} (h : a ++ p = a ++ q) : p = q := by
  apply String.ext
  have hdata := congrArg String.data h
  rw [String.data_append, String.data_append] at hdata
  exact List.append_cancel_left hdata

/-- A string that does not start with the custom-pattern label is never such a
label followed by a pattern. -/
theorem not_custom_reason (r p : String)
    (hr : strStartsWith r "custom_pattern:" = false) :
    r ≠ "custom_pattern:" ++ p := by
  intro h
  rw [h, strStartsWith_append] at hr
  exact absurd hr (by simp)

/-- Claim C8: a pattern the regex engine rejects is treated as non-matching,
and can never be the reason the filter skips an identifier; the classify
function stays total because matchesPattern absorbs the compilation failure. -/
theorem invalid_pattern_never_skips (compile : String → Option (String → Bool))
    (patterns : List String) (rawAddress p : String) (hinv : compile p = none) :
    matchesPattern compile rawAddress p = false ∧
    (shouldProcessAddress compile patterns rawAddress).skipReason
      ≠ some ("custom_pattern:" ++ p) := by
  have hm : matchesPattern compile rawAddress p = false := by
    unfold matchesPattern
    rw [hinv]
  refine ⟨hm, ?_⟩
  unfold shouldProcessAddress
  split
  · intro h
    exact not_custom_reason "masterchain_system" p (by decide)
      (Option.some.inj (by simpa [skipAddress] using h))
  · split
    · intro h
      exact not_custom_reason "zero_heavy" p (by decide)
        (Option.some.inj (by simpa [skipAddress] using h))
    · split
      · intro h
        exact not_custom_reason "too_short" p (by decide)
          (Option.some.inj (by simpa [skipAddress] using h))
      · split
        · next q hq =>
          intro h
          have heq : "custom_pattern:" ++ q = "custom_pattern:" ++ p :=
            Option.some.inj (by simpa [skipAddress] using h)
          have hqp : q = p := string_append_left_cancel heq
          have hfind := List.find?_some hq
          rw [hqp, hm] at hfind
          exact absurd hfind (by simp)
        · simp

/-- Witness for the C8 theorem: the unclosed group pattern is rejected by any
regex engine, modelled by a compile function returning none. -/
theorem invalid_pattern_never_skips_witness :
    matchesPattern (fun _ => none) "0:1234567890" "(" = false ∧
    (shouldProcessAddress (fun _ => none) ["("] "0:1234567890").skipReason
      ≠ some ("custom_pattern:" ++ "(") :=
  invalid_pattern_never_skips (fun _ => none) ["("] "0:1234567890" "(" rfl

/-- processAccountBody labels its result with the address it was given. -/
theorem processAccountBody_address (env : Env) (a : String) (r : ProcessingResult)
    (h : processAccountBody env a = Except.ok r) : r.address = a := by
  simp only [processAccountBody] at h
  by_cases h1 : (shouldProcessAddress env.compile env.customSkipPatterns a).shouldProcess = true
  · rw [if_neg (not_not_intro h1)] at h
    by_cases h2 : env.contractExists a = true
    · rw [if_pos h2] at h
      cases h
      rfl
    · rw [if_neg h2] at h
      cases hi : env.inspectContract a with
      | error e2 =>
        rw [hi] at h
        cases h
      | ok d =>
        rw [hi] at h
        dsimp only at h
        cases hs : env.save a d with
        | error e2 =>
          rw [hs] at h
          dsimp only at h
          cases h
        | ok fp =>
          rw [hs] at h
          dsimp only at h
          cases h
          rfl
  · rw [if_pos h1] at h
    cases h
    rfl

/-- processAccount labels its result with the address it was given. -/
theorem processAccount_address (env : Env) (a : String) :
    (processAccount env a).address = a := by
  unfold processAccount
  cases hpb : processAccountBody env a with
  | ok r => exact processAccountBody_address env a r hpb
  | error e => rfl

/-- Claim C7: a failure while processing one identifier never aborts the
batch: that identifier gets a Failed result carrying the error message, the
batch still has one result per account in order, and every account's result
bears its own address. -/
theorem processAccount_failure_isolated (env : Env) (accounts : List String)
    (i : Nat) (a e : String) (ha : accounts[i]? = some a)
    (hfail : processAccountBody env a = Except.error e) :
    (processAccountsBatch env accounts).length = accounts.length ∧
    (processAccountsBatch env accounts)[i]?
      = some { address := a, success := false, error := some e } ∧
    ∀ (j : Nat) (b : String), accounts[j]? = some b →
      ∃ r : ProcessingResult,
        (processAccountsBatch env accounts)[j]? = some r ∧ r.address = b := by
  refine ⟨List.length_map _ _, ?_, ?_⟩
  · rw [processAccountsBatch, List.getElem?_map, ha]
    simp [processAccount, hfail]
  · intro j b hb
    refine ⟨processAccount env b, ?_, processAccount_address env b⟩
    rw [processAccountsBatch, List.getElem?_map, hb]
    rfl

/-- Witness for the C7 theorem: with a detail fetch that always fails, the
first account of the page gets a Failed outcome and the page keeps both
results. -/
theorem processAccount_failure_isolated_witness :
    (processAccountsBatch envFailingInspect ["0:1234567890", "0:1234567891"]).length = 2 ∧
    (processAccountsBatch envFailingInspect ["0:1234567890", "0:1234567891"])[0]?
      = some { address := "0:1234567890", success := false, error := some "boom" } :=
  ⟨(processAccount_failure_isolated envFailingInspect ["0:1234567890", "0:1234567891"]
      0 "0:1234567890" "boom" (by decide) rfl).1,
   (processAccount_failure_isolated envFailingInspect ["0:1234567890", "0:1234567891"]
      0 "0:1234567890" "boom" (by decide) rfl).2.1⟩

/-- Indices of left-part elements precede indices of right-part elements when
a recogniser for each side rejects the other side. -/
theorem index_lt_of_split {α : Type} (l₁ l₂ : List α) (P Q : α → Bool)
    (h₁ : ∀ x ∈ l₁, Q x = false) (h₂ : ∀ x ∈ l₂, P x = false)
    (i j : Nat) (a b : α)
    (ha : (l₁ ++ l₂)[i]? = some a) (hPa : P a = true)
    (hb : (l₁ ++ l₂)[j]? = some b) (hQb : Q b = true) : i < j := by
  have hi : i < l₁.length := by
    by_contra hge
    push_neg at hge
    rw [List.getElem?_append_right hge] at ha
    obtain ⟨hlt, hg⟩ := List.getElem?_eq_some_iff.mp ha
    rw [h₂ a (hg ▸ List.getElem_mem hlt)] at hPa
    exact absurd hPa (by simp)
  have hj : l₁.length ≤ j := by
    by_contra hlt
    push_neg at hlt
    rw [List.getElem?_append_left hlt] at hb
    obtain ⟨hlt2, hg⟩ := List.getElem?_eq_some_iff.mp hb
    rw [h₁ b (hg ▸ List.getElem_mem hlt2)] at hQb
    exact absurd hQb (by simp)
  omega

/-- Outcome events survive the outcome filter unchanged. -/
theorem filter_outcome_map (rs : List ProcessingResult) :
    (rs.map Event.outcomeEv).filter isOutcomeEv = rs.map Event.outcomeEv :=
  List.filter_eq_self.mpr (by
    intro x hx
    obtain ⟨r, _, rfl⟩ := List.mem_map.mp hx
    rfl)

/-- Claim C1: whenever a runIteration trace contains a cursor-save event,
every per-identifier outcome event of the page precedes it, and the trace has
exactly one outcome event per record of the page. -/
theorem runIteration_cursor_after_outcomes (env : Env) (cursorFile : Option String)
    (j : Nat) (c : String)
    (hj : (runIteration env cursorFile).trace[j]? = some (Event.saveCursorEv c)) :
    (∀ i r, (runIteration env cursorFile).trace[i]? = some (Event.outcomeEv r) → i < j) ∧
    ((runIteration env cursorFile).trace.filter isOutcomeEv).length
      = (env.fetchAccounts (readCursor cursorFile)).nodes.length := by
  cases hemp : (env.fetchAccounts (readCursor cursorFile)).nodes.isEmpty with
  | true =>
    exfalso
    simp only [runIteration, hemp, if_true] at hj
    obtain ⟨hlt, hg⟩ := List.getElem?_eq_some_iff.mp hj
    have hmem : Event.saveCursorEv c ∈
        [Event.ensureDataDir, Event.readCursorEv (readCursor cursorFile),
         Event.fetchPageEv (readCursor cursorFile)] := hg ▸ List.getElem_mem hlt
    simp at hmem
  | false =>
    simp only [runIteration, hemp, Bool.false_eq_true, if_false] at hj ⊢
    generalize hsv : truthyCursor
      ((env.fetchAccounts (readCursor cursorFile)).pageInfo.endCursor) = sv at hj ⊢
    cases sv with
    | none =>
      exfalso
      dsimp only at hj
      obtain ⟨hlt, hg⟩ := List.getElem?_eq_some_iff.mp hj
      have hmem := hg ▸ List.getElem_mem hlt
      rcases List.mem_append.mp hmem with h | h
      · rcases List.mem_append.mp h with h2 | h2
        · simp at h2
        · obtain ⟨r, _, heq⟩ := List.mem_map.mp h2
          simp at heq
      · simp at h
    | some c2 =>
      dsimp only at hj ⊢
      constructor
      · intro i r hi2
        refine index_lt_of_split
          ([Event.ensureDataDir, Event.readCursorEv (readCursor cursorFile),
            Event.fetchPageEv (readCursor cursorFile)]
            ++ (processAccountsBatch env
                (env.fetchAccounts (readCursor cursorFile)).nodes).map Event.outcomeEv)
          [Event.saveCursorEv c2] isOutcomeEv isSaveEv ?_ ?_ i j _ _ hi2 rfl hj rfl
        · intro x hx
          rcases List.mem_append.mp hx with h | h
          · simp only [List.mem_cons, List.not_mem_nil, or_false] at h
            rcases h with rfl | rfl | rfl
            · rfl
            · rfl
            · rfl
          · obtain ⟨r2, _, rfl⟩ := List.mem_map.mp h
            rfl
        · intro x hx
          simp only [List.mem_singleton] at hx
          subst hx
          rfl
      · rw [List.filter_append, List.filter_append, filter_outcome_map]
        simp [isOutcomeEv, processAccountsBatch]

/-- Witness for the C1 theorem on the one-record final page environment: the
save event sits at index 4, the outcome event at index 3 precedes it, and the
trace carries exactly one outcome. -/
theorem runIteration_cursor_after_outcomes_witness :
    ((runIteration envLastPage none).trace.filter isOutcomeEv).length
      = (envLastPage.fetchAccounts (readCursor none)).nodes.length ∧ 3 < 4 :=
  ⟨(runIteration_cursor_after_outcomes envLastPage none 4 "CUR" (by decide)).2,
   (runIteration_cursor_after_outcomes envLastPage none 4 "CUR" (by decide)).1 3
     { address := "0:ab", success := true, skipped := true,
       error := some "Filtered: too_short" }
     (by decide)⟩

/-- Claim C6 counterexample: against a source whose final page reports
hasNextPage = false but still carries an endCursor, the first iteration's
result has hasNextPage = false, yet runComplete starts a second iteration,
because the loop only consults the cursor read-back, never the result. -/
theorem runComplete_ignores_hasNextPage_counterexample :
    (runIteration envLastPage none).result.hasNextPage = false ∧
    runCompleteIters envLastPage none 2 = 2 := by
  decide

/-- One unfolding of the runComplete loop body when the cursor read-back after
the iteration is null: the loop body runs once and clears hasNextPage. -/
theorem runCompleteIters_succ_none (env : Env) (cf : Option String) (f : Nat)
    (h : readCursor (runIteration env cf).cursorFile = none) :
    runCompleteIters env cf (f + 1) = 1 := by
  simp only [runCompleteIters]
  rw [h]

/-- One unfolding of the runComplete loop body when the cursor read-back after
the iteration is non-null: the loop continues. -/
theorem runCompleteIters_succ_some (env : Env) (cf : Option String) (f : Nat)
    (c : String) (h : readCursor (runIteration env cf).cursorFile = some c) :
    runCompleteIters env cf (f + 1)
      = 1 + runCompleteIters env (runIteration env cf).cursorFile f := by
  simp only [runCompleteIters]
  rw [h]

/-- Claim C6 amended: the runComplete loop stops exactly when the read-back of
the persisted cursor after an iteration comes back null (file absent or
blank): such an iteration is the last one started, and a non-null read-back
always starts a further iteration (given remaining fuel), regardless of the
hasNextPage the iteration reported. -/
theorem runComplete_stops_iff_cursor_null (env : Env) (cursorFile : Option String)
    (fuel : Nat) :
    (readCursor (runIteration env cursorFile).cursorFile = none →
      runCompleteIters env cursorFile (fuel + 1) = 1) ∧
    (∀ c, readCursor (runIteration env cursorFile).cursorFile = some c →
      2 ≤ runCompleteIters env cursorFile (fuel + 2)) := by
  constructor
  · intro h
    exact runCompleteIters_succ_none env cursorFile fuel h
  · intro c h
    have hone : ∀ cf f, 1 ≤ runCompleteIters env cf (f + 1) := by
      intro cf f
      cases hc : readCursor (runIteration env cf).cursorFile with
      | none => rw [runCompleteIters_succ_none env cf f hc]
      | some c2 =>
        rw [runCompleteIters_succ_some env cf f c2 hc]
        omega
    rw [show fuel + 2 = (fuel + 1) + 1 from rfl,
        runCompleteIters_succ_some env cursorFile (fuel + 1) c h]
    have hrest := hone (runIteration env cursorFile).cursorFile fuel
    omega

/-- Witness for the amended C6 theorem: an exhausted source stops the loop
after one iteration, while a final page carrying a cursor starts a second. -/
theorem runComplete_stops_iff_cursor_null_witness :
    runCompleteIters envEmptySource none 1 = 1 ∧
    2 ≤ runCompleteIters envLastPage none 2 :=
  ⟨(runComplete_stops_iff_cursor_null envEmptySource none 0).1 (by decide),
   (runComplete_stops_iff_cursor_null envLastPage none 0).2 "CUR" (by decide)⟩

end TonIndexer

